import Mathlib

/-!
Verification of the TypeDoc converter orchestrator
(`src/lib/converter/converter.ts`) and of the TypeScript option
translation module.

Source files, syntax nodes, types and reflections are identified by
natural numbers.  External collaborators (the TypeScript program, the
minimatch exclusion test, the type checker's `getTypeAtLocation`) enter
the model as explicit parameters, so every definition below is a direct
transcription of the orchestrator's own control flow.
-/

namespace TypedocConverter

/-- A compiler diagnostic: the optional originating source file plus a
payload distinguishing diagnostics.  These are the only parts of
`ts.Diagnostic` the converter inspects. -/
structure Diagnostic where
  file : Option Nat
  code : Nat
deriving DecidableEq

/-- The slice of `ts.Program` the converter consumes: the source files
and the four diagnostic categories, listed in the order the code
queries them. -/
structure Program where
  sourceFiles : List Nat
  optionsDiagnostics : List Diagnostic
  syntacticDiagnostics : List Diagnostic
  globalDiagnostics : List Diagnostic
  semanticDiagnostics : List Diagnostic
deriving DecidableEq

/-- The predicate `isRelevantError` of `Converter.getCompilerErrors`: a
diagnostic carrying no file is relevant; otherwise its file must be one
of the included source files (`!file || includedSourceFiles.includes(file)`). -/
def isRelevantError (includedSourceFiles : List Nat) (d : Diagnostic) : Bool :=
  match d.file with
  | none => true
  | some f => includedSourceFiles.contains f

/-- Embedding of `Converter.getCompilerErrors`: under the
`ignoreCompilerErrors` flag return the empty list unconditionally;
otherwise filter each diagnostic category to the relevant diagnostics
and return the first filtered category that is non-empty, or the empty
list when all four are empty. -/
def getCompilerErrors (ignoreCompilerErrors : Bool) (program : Program)
    (includedSourceFiles : List Nat) : List Diagnostic :=
  if ignoreCompilerErrors then []
  else
    let d1 := program.optionsDiagnostics.filter (isRelevantError includedSourceFiles)
    if !d1.isEmpty then d1
    else
      let d2 := program.syntacticDiagnostics.filter (isRelevantError includedSourceFiles)
      if !d2.isEmpty then d2
      else
        let d3 := program.globalDiagnostics.filter (isRelevantError includedSourceFiles)
        if !d3.isEmpty then d3
        else
          let d4 := program.semanticDiagnostics.filter (isRelevantError includedSourceFiles)
          if !d4.isEmpty then d4
          else []

/-- The four diagnostic categories in their fixed priority order:
configuration options, syntactic, global, semantic. -/
def diagnosticCategories (program : Program) : List (List Diagnostic) :=
  [program.optionsDiagnostics, program.syntacticDiagnostics,
   program.globalDiagnostics, program.semanticDiagnostics]

/-- Modelled from the spec: the diagnostic-classifier contract stated
declaratively — filter every category in priority order and return the
first non-empty filtered category; the empty list when all are empty;
and the empty list unconditionally under the suppression flag. -/
def getCompilerErrorsSpec (ignoreCompilerErrors : Bool) (program : Program)
    (includedSourceFiles : List Nat) : List Diagnostic :=
  if ignoreCompilerErrors then []
  else
    (((diagnosticCategories program).map
        (fun c => c.filter (isRelevantError includedSourceFiles))).find?
      (fun c => !c.isEmpty)).getD []

/-- C2: the diagnostic classifier returns the first non-empty filtered
category in the fixed order options → syntactic → global → semantic,
never any later category, the empty list when all four filtered
categories are empty, and the empty list unconditionally when
`ignoreCompilerErrors` is set. -/
theorem getCompilerErrors_eq_spec (ignoreCompilerErrors : Bool)
    (program : Program) (includedSourceFiles : List Nat) :
    getCompilerErrors ignoreCompilerErrors program includedSourceFiles =
      getCompilerErrorsSpec ignoreCompilerErrors program includedSourceFiles := by
  unfold getCompilerErrors getCompilerErrorsSpec diagnosticCategories
  cases ignoreCompilerErrors with
  | true => simp
  | false =>
    simp only [if_false, Bool.false_eq_true, List.map_cons, List.map_nil]
    cases h1 : (program.optionsDiagnostics.filter (isRelevantError includedSourceFiles)).isEmpty
    all_goals cases h2 : (program.syntacticDiagnostics.filter (isRelevantError includedSourceFiles)).isEmpty
    all_goals cases h3 : (program.globalDiagnostics.filter (isRelevantError includedSourceFiles)).isEmpty
    all_goals cases h4 : (program.semanticDiagnostics.filter (isRelevantError includedSourceFiles)).isEmpty
    all_goals simp [List.find?, h1, h2, h3, h4, List.isEmpty_iff.mp]

/-- C10: a diagnostic carrying no associated source file is always
classified as relevant to the included file set — the relevance filter
never removes it in any category — and therefore a file-less diagnostic
sitting in the first non-empty filtered category is returned by the
classifier. -/
theorem fileless_diagnostic_returned (program : Program)
    (includedSourceFiles : List Nat) (d : Diagnostic) (i : Nat)
    (cat : List Diagnostic)
    (hcat : (diagnosticCategories program)[i]? = some cat)
    (hmem : d ∈ cat) (hfile : d.file = none)
    (hprev : ∀ j catj, j < i → (diagnosticCategories program)[j]? = some catj →
      catj.filter (isRelevantError includedSourceFiles) = []) :
    isRelevantError includedSourceFiles d = true ∧
      d ∈ getCompilerErrors false program includedSourceFiles := by
  have hrel : isRelevantError includedSourceFiles d = true := by
    unfold isRelevantError
    rw [hfile]
  refine ⟨hrel, ?_⟩
  have hdmem : d ∈ cat.filter (isRelevantError includedSourceFiles) :=
    List.mem_filter.mpr ⟨hmem, hrel⟩
  have hne : (cat.filter (isRelevantError includedSourceFiles)).isEmpty = false :=
    List.isEmpty_eq_false.mpr (List.ne_nil_of_mem hdmem)
  have hi : i < 4 := by
    have := (List.getElem?_eq_some_iff.mp hcat).1
    simpa [diagnosticCategories] using this
  interval_cases i
  · simp only [diagnosticCategories] at hcat
    simp only [List.getElem?_cons_zero, Option.some.injEq] at hcat
    subst hcat
    simp [getCompilerErrors, hne, hdmem]
  · have e1 := hprev 0 program.optionsDiagnostics (by omega) (by simp [diagnosticCategories])
    simp only [diagnosticCategories, List.getElem?_cons_succ, List.getElem?_cons_zero,
      Option.some.injEq] at hcat
    subst hcat
    simp [getCompilerErrors, e1, hne, hdmem]
  · have e1 := hprev 0 program.optionsDiagnostics (by omega) (by simp [diagnosticCategories])
    have e2 := hprev 1 program.syntacticDiagnostics (by omega) (by simp [diagnosticCategories])
    simp only [diagnosticCategories, List.getElem?_cons_succ, List.getElem?_cons_zero,
      Option.some.injEq] at hcat
    subst hcat
    simp [getCompilerErrors, e1, e2, hne, hdmem]
  · have e1 := hprev 0 program.optionsDiagnostics (by omega) (by simp [diagnosticCategories])
    have e2 := hprev 1 program.syntacticDiagnostics (by omega) (by simp [diagnosticCategories])
    have e3 := hprev 2 program.globalDiagnostics (by omega) (by simp [diagnosticCategories])
    simp only [diagnosticCategories, List.getElem?_cons_succ, List.getElem?_cons_zero,
      Option.some.injEq] at hcat
    subst hcat
    simp [getCompilerErrors, e1, e2, e3, hne, hdmem]

/-- Witness for C10: a concrete file-less diagnostic in the syntactic
category (the first non-empty filtered category, the options category
filtering to nothing) is classified relevant and returned. -/
theorem fileless_diagnostic_returned_witness :
    isRelevantError [7] ⟨none, 42⟩ = true ∧
      ⟨none, 42⟩ ∈ getCompilerErrors false
        ⟨[7], [⟨some 9, 1⟩], [⟨none, 42⟩], [], []⟩ [7] :=
  fileless_diagnostic_returned ⟨[7], [⟨some 9, 1⟩], [⟨none, 42⟩], [], []⟩
    [7] ⟨none, 42⟩ 1 [⟨none, 42⟩] rfl (by decide) rfl
    (by
      intro j catj hj hcat
      match j, hj with
      | 0, _ =>
        simp only [diagnosticCategories, List.getElem?_cons_zero,
          Option.some.injEq] at hcat
        subst hcat
        decide)

/-- Modelled from the spec: the project state threaded through the
pipeline.  The id-to-reflection mapping of `ProjectReflection` (whose
class lives outside the surveyed source) is represented by the list of
reflection ids currently registered, and `danglingNames` stands for the
result of the external `ProjectReflection.getDanglingReferences` — the
by-name references that resolve to no reflection. -/
structure ProjectState where
  reflectionIds : List Nat
  danglingNames : List String
deriving DecidableEq

/-- The conversion context state the orchestrator reads and writes: the
visit stack of nodes currently being converted, the checker's
`getTypeAtLocation` oracle, and the project under construction. -/
structure Context where
  visitStack : List Nat
  getTypeAtLocation : Nat → Nat
  project : ProjectState

/-- A registered node converter: `convert` consumes the context and the
node and returns the produced reflection (if any) together with the
context state it leaves behind, since converters mutate the shared
context and may recurse into the orchestrator. -/
structure ConverterNodeComponent where
  convert : Context → Nat → Option Nat × Context

/-- Embedding of `Converter.convertNode`.  The result carries the
produced reflection, the context state after the call, and an
instrumentation list recording the nodes this call dispatched to a node
converter.  The code first consults the visit stack, then installs a
copy of the stack extended with the node, dispatches on the node's kind,
and finally restores the prior stack. -/
def convertNode (nodeConverters : Nat → Option ConverterNodeComponent)
    (kind : Nat → Nat) (context : Context) (node : Nat) :
    Option Nat × Context × List Nat :=
  if node ∈ context.visitStack then (none, context, [])
  else
    let oldVisitStack := context.visitStack
    let context1 := { context with visitStack := oldVisitStack ++ [node] }
    match nodeConverters (kind node) with
    | some converter =>
      let r := converter.convert context1 node
      (r.1, { r.2 with visitStack := oldVisitStack }, [node])
    | none => (none, { context1 with visitStack := oldVisitStack }, [])

/-- C3: when the node is already present on the context's visit stack,
`convertNode` returns no reflection immediately, leaves the context
untouched and dispatches to no node converter, so re-entry on a cyclic
node structure terminates at once. -/
theorem convertNode_cycle_guard
    (nodeConverters : Nat → Option ConverterNodeComponent)
    (kind : Nat → Nat) (context : Context) (node : Nat)
    (h : node ∈ context.visitStack) :
    convertNode nodeConverters kind context node = (none, context, []) := by
  unfold convertNode
  simp [h]

/-- Witness for C3: a node already on the stack is rejected even though
a converter for its kind is registered. -/
theorem convertNode_cycle_guard_witness :
    5 ∈ ([3, 5] : List Nat) ∧
      convertNode (fun _ => some ⟨fun c _ => (some 99, c)⟩) (fun n => n)
        ⟨[3, 5], fun _ => 0, ⟨[], []⟩⟩ 5 =
      (none, ⟨[3, 5], fun _ => 0, ⟨[], []⟩⟩, []) :=
  ⟨by decide,
   convertNode_cycle_guard (fun _ => some ⟨fun c _ => (some 99, c)⟩)
     (fun n => n) ⟨[3, 5], fun _ => 0, ⟨[], []⟩⟩ 5 (by decide)⟩

/-- C6: `convertNode` restores the visit stack it found: whatever the
dispatched converter does to the context, the returned context carries
exactly the prior visit stack, and the dispatched converter itself runs
on a copy of the prior stack extended with the current node. -/
theorem convertNode_visitStack_restored
    (nodeConverters : Nat → Option ConverterNodeComponent)
    (kind : Nat → Nat) (context : Context) (node : Nat) :
    ((convertNode nodeConverters kind context node).2.1.visitStack =
        context.visitStack) ∧
    (∀ converter, node ∉ context.visitStack →
      nodeConverters (kind node) = some converter →
      convertNode nodeConverters kind context node =
        ((converter.convert
            { context with visitStack := context.visitStack ++ [node] } node).1,
         { (converter.convert
              { context with visitStack := context.visitStack ++ [node] } node).2
            with visitStack := context.visitStack },
         [node])) := by
  constructor
  · unfold convertNode
    by_cases h : node ∈ context.visitStack
    · simp [h]
    · cases hm : nodeConverters (kind node) <;> simp [h, hm]
  · intro converter hnot hdisp
    unfold convertNode
    simp [hnot, hdisp]

/-- Witness for C6: a converter that overwrites the visit stack and the
caller still gets its original stack back, while the converter ran on
the extended copy. -/
theorem convertNode_visitStack_restored_witness :
    (convertNode (fun _ => some ⟨fun c _ => (some 7, { c with visitStack := [999] })⟩)
        (fun n => n) ⟨[3], fun _ => 0, ⟨[], []⟩⟩ 5).2.1.visitStack = [3] ∧
    convertNode (fun _ => some ⟨fun c _ => (some 7, { c with visitStack := [999] })⟩)
        (fun n => n) ⟨[3], fun _ => 0, ⟨[], []⟩⟩ 5 =
      (some 7, ⟨[3], fun _ => 0, ⟨[], []⟩⟩, [5]) := by
  refine ⟨(convertNode_visitStack_restored _ _ _ _).1, ?_⟩
  rw [(convertNode_visitStack_restored
        (fun _ => some ⟨fun c _ => (some 7, { c with visitStack := [999] })⟩)
        (fun n => n) ⟨[3], fun _ => 0, ⟨[], []⟩⟩ 5).2
      ⟨fun c _ => (some 7, { c with visitStack := [999] })⟩ (by decide) rfl]

/-- A type converter registered on the node-based chain: a numeric
priority, the `supportsNode` predicate and the node conversion. -/
structure TypeNodeConverter where
  priority : Int
  supportsNode : Context → Nat → Nat → Bool
  convertNode : Context → Nat → Nat → Nat

/-- A type converter registered on the type-based chain: a numeric
priority, the `supportsType` predicate and the type conversion. -/
structure TypeTypeConverter where
  priority : Int
  supportsType : Context → Nat → Bool
  convertType : Context → Nat → Nat

/-- The two type dispatch chains owned by the orchestrator. -/
structure TypeConverters where
  typeNodeConverters : List TypeNodeConverter
  typeTypeConverters : List TypeTypeConverter

/-- The node-based dispatch loop of `Converter.convertType`: walk the
chain in order and return the first supporting converter's result. -/
def scanNodeConverters (chain : List TypeNodeConverter) (context : Context)
    (node t : Nat) : Option Nat :=
  match chain with
  | [] => none
  | c :: rest =>
    if c.supportsNode context node t then some (c.convertNode context node t)
    else scanNodeConverters rest context node t

/-- The type-based dispatch loop of `Converter.convertType`: walk the
chain in order and return the first supporting converter's result. -/
def scanTypeConverters (chain : List TypeTypeConverter) (context : Context)
    (t : Nat) : Option Nat :=
  match chain with
  | [] => none
  | c :: rest =>
    if c.supportsType context t then some (c.convertType context t)
    else scanTypeConverters rest context t

/-- Embedding of `Converter.convertType`: with a node, resolve its type
when not already given, run the node-based chain and return its first
match; otherwise (or on a node-chain miss, using the resolved type) run
the type-based chain; with neither a match nor inputs, produce nothing. -/
def convertType (converters : TypeConverters) (context : Context)
    (node : Option Nat) (type : Option Nat) : Option Nat :=
  match node with
  | some n =>
    let t := type.getD (context.getTypeAtLocation n)
    match scanNodeConverters converters.typeNodeConverters context n t with
    | some result => some result
    | none => scanTypeConverters converters.typeTypeConverters context t
  | none =>
    match type with
    | some t => scanTypeConverters converters.typeTypeConverters context t
    | none => none

/-- Modelled from the spec: the type-dispatch contract stated through
first-match selection (`find?`) — with a node, resolve the type only
when not supplied, take the first node-based converter whose
`supportsNode` holds and return its conversion, consulting no later
converter; otherwise fall through to the first matching type-based
converter; when nothing matches, produce nothing and raise no error. -/
def convertTypeSpec (converters : TypeConverters) (context : Context)
    (node : Option Nat) (type : Option Nat) : Option Nat :=
  match node with
  | some n =>
    let t := match type with
      | some t => t
      | none => context.getTypeAtLocation n
    match converters.typeNodeConverters.find? (fun c => c.supportsNode context n t) with
    | some c => some (c.convertNode context n t)
    | none =>
      match converters.typeTypeConverters.find? (fun c => c.supportsType context t) with
      | some c => some (c.convertType context t)
      | none => none
  | none =>
    match type with
    | some t =>
      match converters.typeTypeConverters.find? (fun c => c.supportsType context t) with
      | some c => some (c.convertType context t)
      | none => none
    | none => none

/-- The node-based scan selects exactly the first converter whose
predicate holds. -/
theorem scanNodeConverters_eq_find (chain : List TypeNodeConverter)
    (context : Context) (node t : Nat) :
    scanNodeConverters chain context node t =
      (chain.find? (fun c => c.supportsNode context node t)).map
        (fun c => c.convertNode context node t) := by
  induction chain with
  | nil => rfl
  | cons c rest ih =>
    unfold scanNodeConverters
    by_cases h : c.supportsNode context node t
    · simp [h, List.find?_cons_of_pos]
    · simp only [h, if_false, Bool.false_eq_true, ih]
      rw [List.find?_cons_of_neg]
      simpa using h

/-- The type-based scan selects exactly the first converter whose
predicate holds. -/
theorem scanTypeConverters_eq_find (chain : List TypeTypeConverter)
    (context : Context) (t : Nat) :
    scanTypeConverters chain context t =
      (chain.find? (fun c => c.supportsType context t)).map
        (fun c => c.convertType context t) := by
  induction chain with
  | nil => rfl
  | cons c rest ih =>
    unfold scanTypeConverters
    by_cases h : c.supportsType context t
    · simp [h, List.find?_cons_of_pos]
    · simp only [h, if_false, Bool.false_eq_true, ih]
      rw [List.find?_cons_of_neg]
      simpa using h

/-- C4: `convertType` realises the priority-ordered first-match
contract: with a node it resolves the type only when absent and returns
the first supporting node-based converter's result, consulting no later
converter; otherwise, and on a node-chain miss, the type-based chain is
scanned the same way; with no match anywhere nothing is produced and no
error is raised. -/
theorem convertType_eq_spec (converters : TypeConverters) (context : Context)
    (node : Option Nat) (type : Option Nat) :
    convertType converters context node type =
      convertTypeSpec converters context node type := by
  unfold convertType convertTypeSpec
  cases node with
  | none =>
    cases type with
    | none => rfl
    | some t =>
      dsimp only
      rw [scanTypeConverters_eq_find]
      cases converters.typeTypeConverters.find? (fun c => c.supportsType context t) <;> rfl
  | some n =>
    cases type with
    | none =>
      dsimp only [Option.getD_none]
      rw [scanNodeConverters_eq_find]
      cases converters.typeNodeConverters.find?
          (fun c => c.supportsNode context n (context.getTypeAtLocation n)) with
      | some c => rfl
      | none =>
        simp only [Option.map_none]
        rw [scanTypeConverters_eq_find]
        cases converters.typeTypeConverters.find?
            (fun c => c.supportsType context (context.getTypeAtLocation n)) <;> rfl
    | some t =>
      dsimp only [Option.getD_some]
      rw [scanNodeConverters_eq_find]
      cases converters.typeNodeConverters.find? (fun c => c.supportsNode context n t) with
      | some c => rfl
      | none =>
        simp only [Option.map_none]
        rw [scanTypeConverters_eq_find]
        cases converters.typeTypeConverters.find? (fun c => c.supportsType context t) <;> rfl

/-- A registered `ConverterTypeComponent` as the chain bookkeeping sees
it: a registration identity (standing for JavaScript object identity),
the numeric priority, and the two capability flags the code tests with
the `in` operator (the `supportsNode`/`convertNode` pair and the
`supportsType`/`convertType` pair). -/
structure ConverterTypeComponent where
  id : Nat
  priority : Int
  hasNodeCapability : Bool
  hasTypeCapability : Bool
deriving DecidableEq

/-- The two priority chains as stored on the converter instance. -/
structure TypeConverterChains where
  typeNodeConverters : List ConverterTypeComponent
  typeTypeConverters : List ConverterTypeComponent
deriving DecidableEq

/-- The sort the code applies after every push: JavaScript's stable
`Array.prototype.sort` under the comparator
`(a, b) => b.priority - a.priority`, i.e. a stable sort into descending
priority order, modelled by the stable `mergeSort`. -/
def sortByPriority (chain : List ConverterTypeComponent) :
    List ConverterTypeComponent :=
  chain.mergeSort (fun a b => b.priority ≤ a.priority)

/-- Embedding of `Converter.addTypeConverter`: a converter carrying the
node capability pair is pushed onto the node chain and that chain is
re-sorted; one carrying the type capability pair likewise onto the type
chain. -/
def addTypeConverter (chains : TypeConverterChains)
    (c : ConverterTypeComponent) : TypeConverterChains :=
  let chains1 :=
    if c.hasNodeCapability then
      { chains with
        typeNodeConverters := sortByPriority (chains.typeNodeConverters ++ [c]) }
    else chains
  if c.hasTypeCapability then
    { chains1 with
      typeTypeConverters := sortByPriority (chains1.typeTypeConverters ++ [c]) }
  else chains1

/-- Embedding of `Converter.removeTypeConverter`: `indexOf` plus
`splice` removes the first occurrence of the converter from each of the
two chains. -/
def removeTypeConverter (chains : TypeConverterChains)
    (c : ConverterTypeComponent) : TypeConverterChains :=
  { typeTypeConverters := chains.typeTypeConverters.erase c,
    typeNodeConverters := chains.typeNodeConverters.erase c }

/-- A chain sorted by descending numeric priority. -/
def SortedByDescendingPriority (chain : List ConverterTypeComponent) : Prop :=
  chain.Pairwise (fun a b => b.priority ≤ a.priority)

/-- Transitivity of the comparator used by the chain sort. -/
theorem priorityLe_trans (a b c : ConverterTypeComponent)
    (hab : (decide (b.priority ≤ a.priority)) = true)
    (hbc : (decide (c.priority ≤ b.priority)) = true) :
    (decide (c.priority ≤ a.priority)) = true :=
  decide_eq_true (le_trans (of_decide_eq_true hbc) (of_decide_eq_true hab))

/-- Totality of the comparator used by the chain sort. -/
theorem priorityLe_total (a b : ConverterTypeComponent) :
    ((decide (b.priority ≤ a.priority)) || (decide (a.priority ≤ b.priority))) = true := by
  rcases le_total b.priority a.priority with h | h <;> simp [h]

/-- Sorting a chain yields a chain in descending priority order. -/
theorem sortByPriority_sorted (chain : List ConverterTypeComponent) :
    SortedByDescendingPriority (sortByPriority chain) := by
  have h := @List.sorted_mergeSort ConverterTypeComponent
    (fun a b => decide (b.priority ≤ a.priority))
    priorityLe_trans priorityLe_total chain
  exact h.imp (fun hab => of_decide_eq_true hab)

/-- Stability of the chain sort: the converters of any single priority
appear in the sorted chain exactly in the order they appeared before
sorting. -/
theorem sortByPriority_tie_filter (chain : List ConverterTypeComponent) (p : Int) :
    (sortByPriority chain).filter (fun x => x.priority == p) =
      chain.filter (fun x => x.priority == p) := by
  have hmemp : ∀ x ∈ chain.filter (fun x => x.priority == p), x.priority = p := by
    intro x hx
    simpa using (List.mem_filter.mp hx).2
  have hpair : (chain.filter (fun x => x.priority == p)).Pairwise
      (fun a b => (decide (b.priority ≤ a.priority)) = true) := by
    apply List.pairwise_of_forall_mem_list
    intro a ha b hb
    rw [hmemp a ha, hmemp b hb]
    simp
  have hsl : List.Sublist (chain.filter (fun x => x.priority == p)) (sortByPriority chain) :=
    List.sublist_mergeSort priorityLe_trans priorityLe_total hpair
      (List.filter_sublist chain)
  have hfl : List.Sublist (chain.filter (fun x => x.priority == p))
      ((sortByPriority chain).filter (fun x => x.priority == p)) := by
    have h2 := hsl.filter (fun x => x.priority == p)
    simpa using h2
  refine (hfl.eq_of_length ?_).symm
  have hperm : List.Perm (sortByPriority chain) chain := List.mergeSort_perm chain _
  exact ((hperm.filter _).length_eq).symm

/-- C7: registration stably re-sorts and removal preserves order — after
`addTypeConverter` both chains are sorted by descending priority with
equal-priority converters kept in push order, and after
`removeTypeConverter` both chains are still sorted (removal keeps each
chain a subsequence of what it was). -/
theorem typeConverterChains_sorted (chains : TypeConverterChains)
    (c : ConverterTypeComponent) (p : Int)
    (hnode : SortedByDescendingPriority chains.typeNodeConverters)
    (htype : SortedByDescendingPriority chains.typeTypeConverters) :
    (SortedByDescendingPriority (addTypeConverter chains c).typeNodeConverters ∧
     SortedByDescendingPriority (addTypeConverter chains c).typeTypeConverters) ∧
    (SortedByDescendingPriority (removeTypeConverter chains c).typeNodeConverters ∧
     SortedByDescendingPriority (removeTypeConverter chains c).typeTypeConverters) ∧
    ((addTypeConverter chains c).typeNodeConverters.filter (fun x => x.priority == p) =
      (if c.hasNodeCapability then chains.typeNodeConverters ++ [c]
       else chains.typeNodeConverters).filter (fun x => x.priority == p)) ∧
    ((addTypeConverter chains c).typeTypeConverters.filter (fun x => x.priority == p) =
      (if c.hasTypeCapability then chains.typeTypeConverters ++ [c]
       else chains.typeTypeConverters).filter (fun x => x.priority == p)) ∧
    List.Sublist (removeTypeConverter chains c).typeNodeConverters
      chains.typeNodeConverters ∧
    List.Sublist (removeTypeConverter chains c).typeTypeConverters
      chains.typeTypeConverters := by
  unfold addTypeConverter removeTypeConverter
  refine ⟨⟨?_, ?_⟩, ⟨?_, ?_⟩, ?_, ?_, ?_, ?_⟩
  · by_cases hn : c.hasNodeCapability <;>
      by_cases ht : c.hasTypeCapability <;>
      simp [hn, ht, sortByPriority_sorted, hnode]
  · by_cases hn : c.hasNodeCapability <;>
      by_cases ht : c.hasTypeCapability <;>
      simp [hn, ht, sortByPriority_sorted, htype]
  · exact hnode.sublist (chains.typeNodeConverters.erase_sublist c)
  · exact htype.sublist (chains.typeTypeConverters.erase_sublist c)
  · by_cases hn : c.hasNodeCapability <;>
      by_cases ht : c.hasTypeCapability <;>
      simp [hn, ht, sortByPriority_tie_filter]
  · by_cases hn : c.hasNodeCapability <;>
      by_cases ht : c.hasTypeCapability <;>
      simp [hn, ht, sortByPriority_tie_filter]
  · exact chains.typeNodeConverters.erase_sublist c
  · exact chains.typeTypeConverters.erase_sublist c

/-- Witness for C7: registering a converter that ties in priority with
an already-registered one — both chains come back sorted, the tie is
kept in registration order, and a removal keeps the chains ordered. -/
theorem typeConverterChains_sorted_witness :
    (SortedByDescendingPriority
        (addTypeConverter ⟨[⟨1, 5, true, false⟩], [⟨2, 3, false, true⟩]⟩
          ⟨3, 5, true, true⟩).typeNodeConverters ∧
     SortedByDescendingPriority
        (addTypeConverter ⟨[⟨1, 5, true, false⟩], [⟨2, 3, false, true⟩]⟩
          ⟨3, 5, true, true⟩).typeTypeConverters) ∧
    (SortedByDescendingPriority
        (removeTypeConverter ⟨[⟨1, 5, true, false⟩], [⟨2, 3, false, true⟩]⟩
          ⟨3, 5, true, true⟩).typeNodeConverters ∧
     SortedByDescendingPriority
        (removeTypeConverter ⟨[⟨1, 5, true, false⟩], [⟨2, 3, false, true⟩]⟩
          ⟨3, 5, true, true⟩).typeTypeConverters) ∧
    ((addTypeConverter ⟨[⟨1, 5, true, false⟩], [⟨2, 3, false, true⟩]⟩
        ⟨3, 5, true, true⟩).typeNodeConverters.filter (fun x => x.priority == 5) =
      (if (⟨3, 5, true, true⟩ : ConverterTypeComponent).hasNodeCapability then
          [⟨1, 5, true, false⟩] ++ [⟨3, 5, true, true⟩]
        else [⟨1, 5, true, false⟩]).filter (fun x => x.priority == 5)) ∧
    ((addTypeConverter ⟨[⟨1, 5, true, false⟩], [⟨2, 3, false, true⟩]⟩
        ⟨3, 5, true, true⟩).typeTypeConverters.filter (fun x => x.priority == 5) =
      (if (⟨3, 5, true, true⟩ : ConverterTypeComponent).hasTypeCapability then
          [⟨2, 3, false, true⟩] ++ [⟨3, 5, true, true⟩]
        else [⟨2, 3, false, true⟩]).filter (fun x => x.priority == 5)) ∧
    List.Sublist
      (removeTypeConverter ⟨[⟨1, 5, true, false⟩], [⟨2, 3, false, true⟩]⟩
        ⟨3, 5, true, true⟩).typeNodeConverters [⟨1, 5, true, false⟩] ∧
    List.Sublist
      (removeTypeConverter ⟨[⟨1, 5, true, false⟩], [⟨2, 3, false, true⟩]⟩
        ⟨3, 5, true, true⟩).typeTypeConverters [⟨2, 3, false, true⟩] :=
  typeConverterChains_sorted ⟨[⟨1, 5, true, false⟩], [⟨2, 3, false, true⟩]⟩
    ⟨3, 5, true, true⟩ 5
    (by unfold SortedByDescendingPriority; decide)
    (by unfold SortedByDescendingPriority; decide)

/-- The key enumeration `for..in` walks over the id-to-reflection
mapping: JavaScript enumerates integer-like own keys in ascending
numeric order. -/
def ascendingIds (p : ProjectState) : List Nat :=
  p.reflectionIds.mergeSort (fun a b => a ≤ b)

/-- The iteration core of `Converter.resolve`: walk the key enumeration
captured when the loop started and fire the resolve event for a key only
when the key is still present in the current mapping — a property
deleted during `for..in` enumeration before being visited is not
visited, and properties added during the enumeration are not visited,
the enumeration being fixed at entry.  Produces the ids the event fired
for, in order, together with the final project state; the handler stands
for the registered plugin listeners and may mutate the mapping. -/
def resolveLoop (handler : Nat → ProjectState → ProjectState) :
    List Nat → ProjectState → List Nat × ProjectState
  | [], p => ([], p)
  | i :: rest, p =>
    if i ∈ p.reflectionIds then
      let r := resolveLoop handler rest (handler i p)
      (i :: r.1, r.2)
    else resolveLoop handler rest p

/-- Embedding of the iteration of `Converter.resolve` over
`project.reflections`: enumerate the ids present at entry in ascending
order and fire the per-reflection resolve event through the loop. -/
def resolve (handler : Nat → ProjectState → ProjectState)
    (p : ProjectState) : List Nat × ProjectState :=
  resolveLoop handler (ascendingIds p) p

/-- The fired ids always form a subsequence of the entry enumeration. -/
theorem resolveLoop_sublist (handler : Nat → ProjectState → ProjectState)
    (keys : List Nat) (p : ProjectState) :
    List.Sublist (resolveLoop handler keys p).1 keys := by
  induction keys generalizing p with
  | nil => simp [resolveLoop]
  | cons i rest ih =>
    unfold resolveLoop
    by_cases h : i ∈ p.reflectionIds
    · simpa [h] using (ih (handler i p)).cons₂ i
    · simpa [h] using (ih p).cons i

/-- When every key is present and no handler call removes ids, every key
fires. -/
theorem resolveLoop_all_fired (handler : Nat → ProjectState → ProjectState)
    (keys : List Nat) (p : ProjectState)
    (hkeep : ∀ i q x, x ∈ q.reflectionIds → x ∈ (handler i q).reflectionIds)
    (hin : ∀ k ∈ keys, k ∈ p.reflectionIds) :
    (resolveLoop handler keys p).1 = keys := by
  induction keys generalizing p with
  | nil => simp [resolveLoop]
  | cons i rest ih =>
    have hi : i ∈ p.reflectionIds := hin i (by simp)
    unfold resolveLoop
    simp only [hi, if_true]
    rw [ih (handler i p) (fun k hk => hkeep i p k (hin k (by simp [hk])))]

/-- C1 (amended): the resolve pass fires the per-reflection event at
most once per reflection id — the fired ids form a subsequence of the
ascending enumeration of the ids present at resolve-begin, so they are
ascending, duplicate-free when the mapping's ids are, and drawn from the
ids present at entry — and when no plugin handler removes reflections
from the mapping (additions are allowed) the event fires exactly once
for every id present at resolve-begin, in ascending order.  An id
removed by a handler before the iteration reaches it fires no event. -/
theorem resolve_fires_ascending (handler : Nat → ProjectState → ProjectState)
    (p : ProjectState) :
    List.Sublist (resolve handler p).1 (ascendingIds p) ∧
    List.Pairwise (fun a b => a ≤ b) (resolve handler p).1 ∧
    (p.reflectionIds.Nodup → (resolve handler p).1.Nodup) ∧
    (∀ i ∈ (resolve handler p).1, i ∈ p.reflectionIds) ∧
    ((∀ i q x, x ∈ q.reflectionIds → x ∈ (handler i q).reflectionIds) →
      (resolve handler p).1 = ascendingIds p) := by
  have hsub : List.Sublist (resolve handler p).1 (ascendingIds p) :=
    resolveLoop_sublist handler (ascendingIds p) p
  have hsorted : List.Pairwise (fun a b => a ≤ b) (ascendingIds p) := by
    have h := @List.sorted_mergeSort Nat (fun a b => decide (a ≤ b))
      (fun a b c hab hbc =>
        decide_eq_true (le_trans (of_decide_eq_true hab) (of_decide_eq_true hbc)))
      (fun a b => by rcases le_total a b with h | h <;> simp [h])
      p.reflectionIds
    exact h.imp (fun hab => of_decide_eq_true hab)
  refine ⟨hsub, hsorted.sublist hsub, ?_, ?_, ?_⟩
  · intro hnd
    exact ((hnd.perm (List.mergeSort_perm p.reflectionIds _).symm).sublist hsub)
  · intro i hi
    have : i ∈ ascendingIds p := hsub.mem hi
    simpa [ascendingIds] using this
  · intro hkeep
    exact resolveLoop_all_fired handler (ascendingIds p) p hkeep
      (fun k hk => by simpa [ascendingIds] using hk)

/-- Witness for C1 (amended): with a handler that only adds a reflection
the events fire exactly once per id present at entry, ascending. -/
theorem resolve_fires_ascending_witness :
    (resolve (fun _ q => { q with reflectionIds := q.reflectionIds ++ [5] })
        ⟨[2, 0], []⟩).1 = ascendingIds ⟨[2, 0], []⟩ ∧
    (resolve (fun _ q => { q with reflectionIds := q.reflectionIds ++ [5] })
        ⟨[2, 0], []⟩).1.Nodup ∧
    (resolve (fun _ q => { q with reflectionIds := q.reflectionIds ++ [5] })
        ⟨[2, 0], []⟩).1 = [0, 2] := by
  have h := (resolve_fires_ascending
      (fun _ q => { q with reflectionIds := q.reflectionIds ++ [5] })
      ⟨[2, 0], []⟩).2.2.2.2
    (by intro i q x hx; simp [hx])
  have hnd := (resolve_fires_ascending
      (fun _ q => { q with reflectionIds := q.reflectionIds ++ [5] })
      ⟨[2, 0], []⟩).2.2.1 (by decide)
  refine ⟨h, hnd, ?_⟩
  rw [h]
  simp [ascendingIds, List.mergeSort]

/-- Counterexample to C1 as stated: both ids 0 and 1 are present when
resolve begins, but the handler run for id 0 removes id 1 from the
mapping, and the resolve event for id 1 — present at resolve-begin —
never fires: only id 0 fires. -/
theorem resolve_removed_id_not_fired :
    ascendingIds ⟨[0, 1], []⟩ = [0, 1] ∧
    (resolve (fun _ q => { q with reflectionIds := [0] }) ⟨[0, 1], []⟩).1 = [0] ∧
    (resolve (fun _ q => { q with reflectionIds := [0] }) ⟨[0, 1], []⟩).1 ≠ [0, 1] := by
  refine ⟨?_, ?_, ?_⟩ <;>
    simp [resolve, resolveLoop, ascendingIds, List.mergeSort]

/-- Embedding of `Converter.compile`: compute the included
(non-excluded) source files, ask the diagnostic classifier, and on a
non-empty answer return it at once, converting nothing; otherwise invoke
`convertNode` on every included source file in program order and return
no diagnostics.  The middle component records the source files
`convertNode` was invoked on; `isExcluded` stands for the external
minimatch test over the `exclude` patterns. -/
def compile (ignoreCompilerErrors : Bool) (program : Program)
    (isExcluded : Nat → Bool)
    (nodeConverters : Nat → Option ConverterNodeComponent) (kind : Nat → Nat)
    (context : Context) : List Diagnostic × List Nat × Context :=
  let includedSourceFiles := program.sourceFiles.filter (fun f => !isExcluded f)
  let errors := getCompilerErrors ignoreCompilerErrors program includedSourceFiles
  if !errors.isEmpty then (errors, [], context)
  else
    ([], includedSourceFiles,
     includedSourceFiles.foldl
       (fun c f => (convertNode nodeConverters kind c f).2.1) context)

/-- C5: when the diagnostic classifier reports a non-empty list, the
compile phase returns exactly that list to its caller — nothing is
thrown — and `convertNode` is invoked on no source file: the invocation
log is empty and the context is returned untouched. -/
theorem compile_aborts_on_errors (ignoreCompilerErrors : Bool)
    (program : Program) (isExcluded : Nat → Bool)
    (nodeConverters : Nat → Option ConverterNodeComponent) (kind : Nat → Nat)
    (context : Context)
    (h : getCompilerErrors ignoreCompilerErrors program
        (program.sourceFiles.filter (fun f => !isExcluded f)) ≠ []) :
    compile ignoreCompilerErrors program isExcluded nodeConverters kind context =
      (getCompilerErrors ignoreCompilerErrors program
        (program.sourceFiles.filter (fun f => !isExcluded f)), [], context) := by
  unfold compile
  simp [List.isEmpty_eq_false.mpr h]

/-- Witness for C5: a run with one relevant options diagnostic returns
exactly that diagnostic, converts no file and leaves the context
alone. -/
theorem compile_aborts_on_errors_witness :
    compile false ⟨[1], [⟨some 1, 3⟩], [], [], []⟩ (fun _ => false)
        (fun _ => some ⟨fun c _ => (some 8, c)⟩) (fun n => n)
        ⟨[], fun _ => 0, ⟨[], []⟩⟩ =
      ([⟨some 1, 3⟩], [], ⟨[], fun _ => 0, ⟨[], []⟩⟩) := by
  rw [compile_aborts_on_errors false ⟨[1], [⟨some 1, 3⟩], [], [], []⟩
      (fun _ => false) (fun _ => some ⟨fun c _ => (some 8, c)⟩) (fun n => n)
      ⟨[], fun _ => 0, ⟨[], []⟩⟩ (by decide)]
  rfl

/-- The fixed introductory lines of the aggregated dangling-reference
warning; the logger receives these lines followed by the dangling names,
joined with newlines. -/
def danglingWarningIntro : List String :=
  ["Some names refer to reflections that do not exist.",
   "This can be caused by exporting a reflection only under a different name than it is declared when excludeNotExported is set",
   "or by a plugin removing reflections without removing references. The names that cannot be resolved are:"]

/-- The outcome of `Converter.convert`: the compiler errors, the final
project, the warnings the logger received — each warning recorded as its
list of lines before joining — and the ids the resolve event fired
for. -/
structure ConverterRunResult where
  errors : List Diagnostic
  project : ProjectState
  warnings : List (List String)
  resolvedIds : List Nat

/-- Embedding of `Converter.convert`: compile, then resolve, then the
dangling-reference check — when any dangling name exists the logger
receives one aggregated warning naming them all — and the errors and
project are returned. -/
def convert (ignoreCompilerErrors : Bool) (program : Program)
    (isExcluded : Nat → Bool)
    (nodeConverters : Nat → Option ConverterNodeComponent) (kind : Nat → Nat)
    (handler : Nat → ProjectState → ProjectState) (context : Context) :
    ConverterRunResult :=
  let r := compile ignoreCompilerErrors program isExcluded nodeConverters kind context
  let resolved := resolve handler r.2.2.project
  let dangling := resolved.2.danglingNames
  { errors := r.1
    project := resolved.2
    warnings := if !dangling.isEmpty then [danglingWarningIntro ++ dangling] else []
    resolvedIds := resolved.1 }

/-- C8: on a run whose compile phase produced no blocking diagnostics —
the runs that, per the pipeline state machine, reach the resolve phase —
dangling references are non-fatal: when any by-name reference fails to
resolve, all dangling names are reported in one single aggregated
warning after resolve, and the run still returns normally with an empty
errors list. -/
theorem convert_dangling_nonfatal (ignoreCompilerErrors : Bool)
    (program : Program) (isExcluded : Nat → Bool)
    (nodeConverters : Nat → Option ConverterNodeComponent) (kind : Nat → Nat)
    (handler : Nat → ProjectState → ProjectState) (context : Context)
    (hok : getCompilerErrors ignoreCompilerErrors program
        (program.sourceFiles.filter (fun f => !isExcluded f)) = [])
    (hd : (convert ignoreCompilerErrors program isExcluded nodeConverters kind
        handler context).project.danglingNames ≠ []) :
    (convert ignoreCompilerErrors program isExcluded nodeConverters kind
        handler context).warnings =
      [danglingWarningIntro ++
        (convert ignoreCompilerErrors program isExcluded nodeConverters kind
          handler context).project.danglingNames] ∧
    (convert ignoreCompilerErrors program isExcluded nodeConverters kind
        handler context).errors = [] := by
  constructor
  · simp only [convert] at hd ⊢
    rw [List.isEmpty_eq_false.mpr hd]
    simp
  · show (compile ignoreCompilerErrors program isExcluded nodeConverters kind
        context).1 = []
    unfold compile
    simp [hok]

/-- Witness for C8: a run with no compiler diagnostics whose project
carries one unresolved name ends with exactly one aggregated warning
naming it and an empty errors list. -/
theorem convert_dangling_nonfatal_witness :
    (convert false ⟨[], [], [], [], []⟩ (fun _ => false) (fun _ => none)
        (fun n => n) (fun _ q => q)
        ⟨[], fun _ => 0, ⟨[0], ["MissingName"]⟩⟩).warnings =
      [danglingWarningIntro ++
        (convert false ⟨[], [], [], [], []⟩ (fun _ => false) (fun _ => none)
          (fun n => n) (fun _ q => q)
          ⟨[], fun _ => 0, ⟨[0], ["MissingName"]⟩⟩).project.danglingNames] ∧
    (convert false ⟨[], [], [], [], []⟩ (fun _ => false) (fun _ => none)
        (fun n => n) (fun _ q => q)
        ⟨[], fun _ => 0, ⟨[0], ["MissingName"]⟩⟩).errors = [] :=
  convert_dangling_nonfatal false ⟨[], [], [], [], []⟩ (fun _ => false)
    (fun _ => none) (fun n => n) (fun _ q => q)
    ⟨[], fun _ => 0, ⟨[0], ["MissingName"]⟩⟩ (by decide)
    (by simp [convert, compile, resolve, resolveLoop, ascendingIds,
      List.mergeSort, getCompilerErrors])

/-- The field types of TypeScript's command line option metadata the
translation switches on; any other value is a map type. -/
inductive TsOptionType where
  | number
  | boolean
  | string
  | list
  | object
  | map (mapName : String)
deriving DecidableEq

/-- The slice of `ts.CommandLineOption` the translation reads: the
name, the optional short name, the optional description key and the
option type. -/
structure CommandLineOption where
  name : String
  shortName : Option String
  descriptionKey : Option String
  optionType : TsOptionType
deriving DecidableEq

/-- The scope of a contributed declaration. -/
inductive ParameterScope where
  | TypeDoc
  | TypeScript
deriving DecidableEq

/-- The parameter types of TypeDoc's own option declarations. -/
inductive ParameterType where
  | Number
  | Boolean
  | String
  | Array
  | Mixed
  | Map (mapName : String)
deriving DecidableEq

/-- A TypeDoc option declaration as the translation produces it. -/
structure DeclarationOption where
  name : String
  short : Option String
  help : String
  scope : ParameterScope
  paramType : ParameterType
deriving DecidableEq

/-- The fixed deny-list `IGNORED_OPTIONS`: option names that control the
engine's own emission rather than documentation and are therefore never
contributed. -/
def IGNORED_OPTIONS : List String :=
  ["out", "version", "help", "emitDeclarationOnly", "watch", "declaration",
   "declarationDir", "declarationMap", "mapRoot", "sourceMap", "inlineSources",
   "removeComments", "incremental", "tsBuildInfoFile", "configFilePath"]

/-- Embedding of `createTSDeclaration`: translate one TypeScript option
declaration into a TypeDoc declaration, keeping name and short name,
taking the description key as the help text (empty when absent),
scoping it to TypeScript and mapping the option type. -/
def createTSDeclaration (o : CommandLineOption) : DeclarationOption :=
  { name := o.name
    short := o.shortName
    help := o.descriptionKey.getD ""
    scope := ParameterScope.TypeScript
    paramType :=
      match o.optionType with
      | .number => .Number
      | .boolean => .Boolean
      | .string => .String
      | .list => .Array
      | .object => .Mixed
      | .map m => .Map m }

/-- Embedding of `addTSOptions`: contribute a translated declaration for
every engine option declaration whose name is not deny-listed. -/
def addTSOptions (optionDeclarations : List CommandLineOption) :
    List DeclarationOption :=
  (optionDeclarations.filter (fun o => !IGNORED_OPTIONS.contains o.name)).map
    createTSDeclaration

/-- The translation preserves the option name. -/
theorem createTSDeclaration_name (o : CommandLineOption) :
    (createTSDeclaration o).name = o.name := rfl

/-- C9: the translation contributes a configuration declaration for
exactly the engine option declarations whose name avoids the fixed
deny-list — the contributed names are the declared names minus the
deny-listed ones, no contributed declaration carries a deny-listed
name, and the deny-list contains the output path, version/help flags,
declaration-emission flags, source-map flags, incremental-build flags
and `configFilePath`. -/
theorem addTSOptions_exactly_non_ignored
    (optionDeclarations : List CommandLineOption) :
    ((addTSOptions optionDeclarations).map (fun d => d.name) =
      (optionDeclarations.map (fun o => o.name)).filter
        (fun n => !IGNORED_OPTIONS.contains n)) ∧
    (∀ d ∈ addTSOptions optionDeclarations, d.name ∉ IGNORED_OPTIONS) ∧
    (∀ n ∈ ["out", "version", "help", "emitDeclarationOnly", "declaration",
        "declarationDir", "declarationMap", "mapRoot", "sourceMap",
        "inlineSources", "incremental", "tsBuildInfoFile", "configFilePath"],
      n ∈ IGNORED_OPTIONS) := by
  refine ⟨?_, ?_, by decide⟩
  · unfold addTSOptions
    induction optionDeclarations with
    | nil => rfl
    | cons o rest ih =>
      by_cases h : o.name ∈ IGNORED_OPTIONS
      · simpa [List.filter_cons, h, createTSDeclaration_name] using ih
      · simpa [List.filter_cons, h, createTSDeclaration_name] using ih
  · intro d hd
    unfold addTSOptions at hd
    obtain ⟨o, ho, rfl⟩ := List.mem_map.mp hd
    have hnot : o.name ∉ IGNORED_OPTIONS := by
      simpa using (List.mem_filter.mp ho).2
    simp only [createTSDeclaration_name]
    exact hnot

/-- Witness for C9: a non-deny-listed option (`strict`) is contributed
and no deny-listed option (`out`) is, and the contributed declaration's
name avoids the deny-list. -/
theorem addTSOptions_exactly_non_ignored_witness :
    (addTSOptions [⟨"strict", none, none, .boolean⟩,
        ⟨"out", none, none, .string⟩]).map (fun d => d.name) = ["strict"] ∧
    (createTSDeclaration ⟨"strict", none, none, .boolean⟩).name ∉ IGNORED_OPTIONS := by
  constructor
  · rw [(addTSOptions_exactly_non_ignored
      [⟨"strict", none, none, .boolean⟩, ⟨"out", none, none, .string⟩]).1]
    rfl
  · exact (addTSOptions_exactly_non_ignored [⟨"strict", none, none, .boolean⟩]).2.1
      (createTSDeclaration ⟨"strict", none, none, .boolean⟩) (by decide)

end TypedocConverter
